import Mathlib

/-!
Verification of the Digital-Twin exporter (exporter.py and the simulator
signer sign.py) against its specification.

The Python code is shallowly embedded: dictionaries of the policy document
become structures, Python exceptions become `Except Unit`, time stamps become
integers, network reads become an explicit `World` of fetch results, and
network writes become an explicit `Effect` list.  Machine-level concerns
(HTTP, real clocks, RSA arithmetic) are modelled by oracles carried in the
`World`; everything that is control flow in the Python source is reproduced
definitionally.
-/

namespace Exporter

/-- A downtime time stamp field as stored in the policy document.
`none` models a string that `datetime.fromisoformat` rejects,
`some t` models a string that parses to the instant `t`. -/
abbrev TimeStamp := Option Int

/-- The value of a `downtime` block in a `ThingRule`.  A field holding
`none` models an absent key (Python `dict.get` returning `None`). -/
structure DowntimeBlock where
  start : Option TimeStamp := none
  stop : Option TimeStamp := none
deriving Repr, DecidableEq

/-- Models `datetime.fromisoformat(x)` applied to the result of a `.get`:
an absent key (`none`) raises `TypeError`, a malformed string
(`some none`) raises `ValueError`, and a well-formed string parses. -/
def fromisoformat : Option TimeStamp → Except Unit Int
  | none => .error ()
  | some none => .error ()
  | some (some t) => .ok t

/-- One entry of a `ThingRule`'s `features` list
(`{"feature_id": ..., "properties": [...]}`); absent keys take the
defaults the Python `.get` calls supply. -/
structure FeatureRule where
  feature_id : String := ""
  properties : List String := []
deriving Repr, DecidableEq

/-- One entry of a `SourceRule`'s `things` list. -/
structure ThingRule where
  thing_id : String := ""
  downtime : Option DowntimeBlock := none
  features : List FeatureRule := []
deriving Repr, DecidableEq

/-- One entry of the policy's `data_to_export.sources` list. -/
structure SourceRule where
  source_url : String := ""
  source_name : String := "unnamed_source"
  auth_header : String := ""
  things : List ThingRule := []
deriving Repr, DecidableEq

/-- The loaded policy document (`exporter_config.json`), flattened to the
fields the exporter reads: `data_to_export.sources`, `basyx.url`,
`security.verify_signatures`, `security.public_key_path` and
`logging.log_filtered_items`. -/
structure Config where
  sources : List SourceRule := []
  basyx_url : Option String := none
  verify_signatures : Bool := false
  public_key_path : String := "public_key.pem"
  log_filtered_items : Bool := false

/-- The thing-pattern test of `get_export_config`
(`config_thing_id == thing_id or config_thing_id == "*"`).  The queried
`thing_id` is an `Option String` because the reconciliation loop passes
`thing.get("thingId")`, which may be Python `None`; `None` never equals a
string, while the `"*"` test does not look at `thing_id` at all. -/
def matchesThing (cfgTid : String) (tid : Option String) : Bool :=
  some cfgTid == tid || cfgTid == "*"

/-- The value `thing_config.get("downtime", {}).get("start")`. -/
def downtimeStart (r : ThingRule) : Option TimeStamp :=
  r.downtime.bind (·.start)

/-- The value `thing_config.get("downtime", {}).get("end")`. -/
def downtimeStop (r : ThingRule) : Option TimeStamp :=
  r.downtime.bind (·.stop)

/-- Lines 49-52 of exporter.py: parse both downtime bounds (each parse can
raise) and test `downtime_start <= time_now <= downtime_end`. -/
def checkDowntime (r : ThingRule) (now : Int) : Except Unit Bool := do
  let ds ← fromisoformat (downtimeStart r)
  let de ← fromisoformat (downtimeStop r)
  pure (ds ≤ now && now ≤ de)

/-- The inner `for feature_config in features` loop of `get_export_config`:
first rule whose `feature_id` equals the query or is `"*"` supplies its
`properties` list; falling off the end yields `none`. -/
def findFeature (fid : String) : List FeatureRule → Option (List String)
  | [] => none
  | f :: rest =>
    if f.feature_id == fid || f.feature_id == "*" then some f.properties
    else findFeature fid rest

/-- The `for thing_config in things_config` loop of `get_export_config`.
The result distinguishes "the loop returned r" (`some r`) from "the loop
fell through" (`none`); a downtime hit returns `some none` (the Python
`return None`), a feature hit returns `some (some props)`, and a matched
thing rule whose features all fail to match falls through to the next
thing rule (the Python loop has no `return` after the feature loop). -/
def goThings (tid : Option String) (fid : String) (now : Int) :
    List ThingRule → Except Unit (Option (Option (List String)))
  | [] => .ok none
  | r :: rest =>
    if matchesThing r.thing_id tid then do
      if (← checkDowntime r now) then
        pure (some none)
      else
        match findFeature fid r.features with
        | some props => pure (some (some props))
        | none => goThings tid fid now rest
    else goThings tid fid now rest

/-- The outer `for source_config in sources_config` loop of
`get_export_config`: a source rule whose `source_url` matches delegates to
its things; if the things fall through, the loop continues with the next
source rule. -/
def goSources (source_url : String) (tid : Option String) (fid : String)
    (now : Int) : List SourceRule → Except Unit (Option (List String))
  | [] => .ok none
  | s :: rest =>
    if s.source_url == source_url then
      match goThings tid fid now s.things with
      | .error e => .error e
      | .ok (some r) => .ok r
      | .ok none => goSources source_url tid fid now rest
    else goSources source_url tid fid now rest

/-- `get_export_config(source_url, thing_id, feature_id, config)` of
exporter.py, lines 32-62, with `datetime.now()` passed explicitly as
`now`.  `.error ()` models an exception escaping the function (it has no
try/except of its own); `.ok none` models `return None` ("unconfigured");
`.ok (some props)` models returning a properties selector. -/
def get_export_config (source_url : String) (tid : Option String)
    (fid : String) (cfg : Config) (now : Int) :
    Except Unit (Option (List String)) :=
  goSources source_url tid fid now cfg.sources

/-- The flattened traversal order of the resolver: every thing rule whose
enclosing source rule matches `source_url` and whose own pattern matches
the queried thing, in declaration order.  (Spec-side definition used to
state what the resolver actually does.) -/
def matchingThingRules (source_url : String) (tid : Option String)
    (sources : List SourceRule) : List ThingRule :=
  (sources.filter (fun s => s.source_url == source_url)).flatMap
    (fun s => s.things.filter (fun r => matchesThing r.thing_id tid))

/-- Reduction of the `Except` monad bind on an error, for rewriting. -/
@[simp] theorem exceptBind_error {α β : Type} (e : Unit)
    (f : α → Except Unit β) : (Except.error e >>= f) = Except.error e := rfl

/-- Reduction of the `Except` monad bind on a success, for rewriting. -/
@[simp] theorem exceptBind_ok {α β : Type} (a : α)
    (f : α → Except Unit β) : (Except.ok a >>= f) = f a := rfl

/-- Reduction of `pure` in the `Except` monad, for rewriting. -/
@[simp] theorem exceptPure {α : Type} (a : α) :
    (pure a : Except Unit α) = Except.ok a := rfl

/-- Modelled from the amended resolver contract: scan the matching thing
rules in declaration order; the first one inside its downtime window
decides `Unconfigured`; otherwise the first one containing a matching
feature rule decides that rule's selector; a matched thing rule deciding
neither is skipped, and exhaustion decides `Unconfigured`. -/
def resolveFlat (fid : String) (now : Int) :
    List ThingRule → Except Unit (Option (List String))
  | [] => .ok none
  | r :: rest => do
    if (← checkDowntime r now) then
      pure none
    else
      match findFeature fid r.features with
      | some props => pure (some props)
      | none => resolveFlat fid now rest

/-- Inner lemma: running the thing loop of one source rule and falling
through to a continuation is the same as running the flattened scan over
that source's matching thing rules followed by the continuation. -/
theorem goThings_eq_flat (tid : Option String) (fid : String) (now : Int)
    (things : List ThingRule) (restFlat : List ThingRule) :
    (match goThings tid fid now things with
      | .error e => .error e
      | .ok (some r) => .ok r
      | .ok none => resolveFlat fid now restFlat) =
    resolveFlat fid now
      (things.filter (fun r => matchesThing r.thing_id tid) ++ restFlat) := by
  induction things with
  | nil => simp [goThings]
  | cons r rest ih =>
    by_cases hm : matchesThing r.thing_id tid
    · simp only [goThings, hm, if_true, List.filter_cons, List.cons_append]
      simp only [resolveFlat, bind, Except.bind]
      cases hdt : checkDowntime r now with
      | error e => simp [hdt]
      | ok b =>
        cases b with
        | true => simp [hdt]
        | false =>
          cases hff : findFeature fid r.features with
          | some props => simp [hdt, hff]
          | none =>
            simp only [hdt, hff]
            exact ih
    · simp only [goThings, hm, if_false, List.filter_cons]
      simp only [hm, Bool.false_eq_true, if_false]
      exact ih

/-- The resolver equals the flattened scan over all matching thing rules. -/
theorem resolve_eq_flat (source_url : String) (tid : Option String)
    (fid : String) (cfg : Config) (now : Int) :
    get_export_config source_url tid fid cfg now =
      resolveFlat fid now (matchingThingRules source_url tid cfg.sources) := by
  show goSources source_url tid fid now cfg.sources = _
  unfold matchingThingRules
  induction cfg.sources with
  | nil => simp [goSources, resolveFlat]
  | cons s rest ih =>
    by_cases hs : s.source_url == source_url
    · simp only [goSources, hs, if_true, List.filter_cons, hs,
        List.flatMap_cons]
      rw [← goThings_eq_flat tid fid now s.things]
      cases hgt : goThings tid fid now s.things with
      | error e => rfl
      | ok o =>
        cases o with
        | some r => rfl
        | none => exact ih
    · simp only [goSources, hs, List.filter_cons]
      simp only [hs, Bool.false_eq_true, if_false]
      exact ih

/-- A helper: when both downtime bounds parse, `checkDowntime` succeeds
with the window test. -/
theorem checkDowntime_ok {r : ThingRule} {now ds de : Int}
    (hds : fromisoformat (downtimeStart r) = .ok ds)
    (hde : fromisoformat (downtimeStop r) = .ok de) :
    checkDowntime r now = .ok (decide (ds ≤ now) && decide (now ≤ de)) := by
  simp [checkDowntime, hds, hde]

/-- A downtime window lying entirely in the past of the query instants
used below. -/
def pastWindow : DowntimeBlock :=
  { start := some (some 0), stop := some (some 1) }

/-- A policy with one source and two thing rules for the same thing: the
first matching thing rule has no matching feature rule, the second has a
wildcard feature rule. -/
def c1Policy : Config :=
  { sources := [{ source_url := "s", things := [
      { thing_id := "t", downtime := some pastWindow, features := [] },
      { thing_id := "t", downtime := some pastWindow,
        features := [{ feature_id := "*", properties := ["p"] }] }] }] }

/-- C1 (counterexample): the claim predicts that, because the feature
iteration of the first matching thing rule exhausts without a match, the
result is `Unconfigured`; the code instead falls through to the second
thing rule and returns its selector `["p"]`. -/
theorem c1_counterexample :
    get_export_config "s" (some "t") "f" c1Policy 5 = .ok (some ["p"]) ∧
      (Except.ok (some ["p"]) : Except Unit (Option (List String))) ≠
        .ok none := by
  exact ⟨rfl, by simp⟩

/-- C1 (amended): the resolver is first-DECISION-wins over the flattened,
declaration-ordered list of all thing rules whose enclosing source rule
matches the queried `source_url` and whose own pattern matches the queried
thing (exactly or by wildcard): the first such rule in downtime decides
`Unconfigured`, otherwise the first such rule with a matching feature rule
decides that rule's selector; a matched thing rule deciding neither is
skipped (later thing rules and later source rules with the same URL are
still consulted), and only full exhaustion yields `Unconfigured`. -/
theorem c1_resolver_first_decision_wins (su : String) (tid : Option String)
    (fid : String) (cfg : Config) (now : Int) :
    get_export_config su tid fid cfg now =
      resolveFlat fid now (matchingThingRules su tid cfg.sources) :=
  resolve_eq_flat su tid fid cfg now

/-- A policy whose only thing rule carries no `downtime` block at all. -/
def c2Policy : Config :=
  { sources := [{ source_url := "s", things := [
      { thing_id := "t",
        features := [{ feature_id := "f", properties := ["p"] }] }] }] }

/-- C2: evaluating the resolver on a matched thing rule that has no
`downtime` block raises instead of treating the rule as "never in
downtime": `thing_config.get("downtime", {}).get("start")` is `None` and
`datetime.fromisoformat(None)` raises `TypeError`, which escapes
`get_export_config`.  The claim (and the spec) say this input must yield
the selector `["p"]`; the code errors. -/
theorem c2_missing_downtime_raises :
    get_export_config "s" (some "t") "f" c2Policy 5 = .error () ∧
      (Except.error () : Except Unit (Option (List String))) ≠
        .ok (some ["p"]) :=
  ⟨rfl, by simp⟩

/-- C5: if the first thing rule the resolver reaches for the queried
source and thing has a downtime window containing `now`, then resolving
ANY feature id of that thing returns `Unconfigured`.  The feature id does
not occur in the hypotheses: the suppression is decided before any
feature rule of the thing is examined. -/
theorem c5_downtime_suppresses_whole_thing (su : String) (tid : Option String)
    (cfg : Config) (now ds de : Int) (r : ThingRule) (rest : List ThingRule)
    (hm : matchingThingRules su tid cfg.sources = r :: rest)
    (hds : fromisoformat (downtimeStart r) = .ok ds)
    (hde : fromisoformat (downtimeStop r) = .ok de)
    (h1 : ds ≤ now) (h2 : now ≤ de) :
    ∀ fid, get_export_config su tid fid cfg now = .ok none := by
  intro fid
  rw [resolve_eq_flat, hm]
  simp [resolveFlat, checkDowntime_ok hds hde, h1, h2]

/-- A policy whose thing rule is inside its downtime window at instant 5
and would otherwise export property `p` for every feature. -/
def c5Policy : Config :=
  { sources := [{ source_url := "s", things := [
      { thing_id := "t",
        downtime := some { start := some (some 0), stop := some (some 10) },
        features := [{ feature_id := "*", properties := ["p"] }] }] }] }

/-- Witness for C5 at a concrete policy, thing and instant. -/
theorem c5_downtime_suppresses_whole_thing_witness :
    get_export_config "s" (some "t") "f" c5Policy 5 = .ok none :=
  c5_downtime_suppresses_whole_thing "s" (some "t") c5Policy 5 0 10
    { thing_id := "t",
      downtime := some { start := some (some 0), stop := some (some 10) },
      features := [{ feature_id := "*", properties := ["p"] }] }
    [] rfl rfl rfl (by decide) (by decide) "f"

/-- UTF-8 encoding of one Unicode code point, as Python's
`raw_id.encode("utf-8")` produces it inside `encode_id`. -/
def utf8Bytes (n : Nat) : List Nat :=
  if n < 0x80 then [n]
  else if n < 0x800 then [0xC0 + n / 0x40, 0x80 + n % 0x40]
  else if n < 0x10000 then
    [0xE0 + n / 0x1000, 0x80 + n / 0x40 % 0x40, 0x80 + n % 0x40]
  else
    [0xF0 + n / 0x40000, 0x80 + n / 0x1000 % 0x40, 0x80 + n / 0x40 % 0x40,
      0x80 + n % 0x40]

/-- The byte string `s.encode("utf-8")`. -/
def stringToUtf8 (s : String) : List Nat :=
  s.data.flatMap (fun c => utf8Bytes c.toNat)

/-- Every UTF-8 byte of a Unicode scalar value fits in one octet. -/
theorem utf8Bytes_lt (n : Nat) (hn : n < 0x110000) :
    ∀ x ∈ utf8Bytes n, x < 256 := by
  unfold utf8Bytes
  split_ifs <;> simp <;> omega

/-- A code point always encodes to at least one byte. -/
theorem utf8Bytes_ne_nil (n : Nat) : utf8Bytes n ≠ [] := by
  unfold utf8Bytes
  split_ifs <;> simp

/-- UTF-8 encodings of scalar values are mutually prefix-distinguishing:
equal encodings followed by arbitrary byte tails force both the code
points and the tails to coincide (the first byte determines the length,
and within one length the bytes determine the code point). -/
theorem utf8Bytes_cancel {m n : Nat} (hm : m < 0x110000) (hn : n < 0x110000)
    {l1 l2 : List Nat}
    (h : utf8Bytes m ++ l1 = utf8Bytes n ++ l2) : m = n ∧ l1 = l2 := by
  unfold utf8Bytes at h
  split_ifs at h <;>
    simp only [List.cons_append, List.nil_append, List.cons.injEq] at h <;>
    refine ⟨by omega, ?_⟩ <;>
    first
      | exact h.2
      | exact h.2.2
      | exact h.2.2.2
      | exact h.2.2.2.2
      | (exfalso; omega)

/-- A `Char` is a Unicode scalar value, hence below 0x110000. -/
theorem charToNat_lt (c : Char) : c.toNat < 0x110000 := by
  have h := c.valid
  rcases h with h | ⟨h1, h2⟩
  · exact Nat.lt_trans h (by norm_num)
  · exact h2

/-- UTF-8 encoding of character lists is injective. -/
theorem utf8_flatMap_inj : ∀ cs ds : List Char,
    cs.flatMap (fun c => utf8Bytes c.toNat) =
      ds.flatMap (fun c => utf8Bytes c.toNat) → cs = ds := by
  intro cs
  induction cs with
  | nil =>
    intro ds h
    cases ds with
    | nil => rfl
    | cons d ds =>
      rw [List.flatMap_nil, List.flatMap_cons, eq_comm,
        List.append_eq_nil] at h
      exact absurd h.1 (utf8Bytes_ne_nil d.toNat)
  | cons c cs ih =>
    intro ds h
    cases ds with
    | nil =>
      rw [List.flatMap_nil, List.flatMap_cons, List.append_eq_nil] at h
      exact absurd h.1 (utf8Bytes_ne_nil c.toNat)
    | cons d ds =>
      rw [List.flatMap_cons, List.flatMap_cons] at h
      obtain ⟨hcd, htail⟩ := utf8Bytes_cancel (charToNat_lt c)
        (charToNat_lt d) h
      rw [Char.ext (UInt32.ext hcd), ih ds htail]

/-- The base64url alphabet used by `base64.urlsafe_b64encode`: positions
0-25 map to `A`-`Z`, 26-51 to `a`-`z`, 52-61 to `0`-`9`, 62 to `-` and
63 to `_`. -/
def b64Char (n : Nat) : Char :=
  if n < 26 then Char.ofNat (65 + n)
  else if n < 52 then Char.ofNat (97 + (n - 26))
  else if n < 62 then Char.ofNat (48 + (n - 52))
  else if n = 62 then '-'
  else '_'

/-- The alphabet map is injective on sextets. -/
theorem b64Char_inj_fin : ∀ i j : Fin 64, b64Char i = b64Char j → i = j := by
  decide

/-- No sextet maps to the padding character. -/
theorem b64Char_ne_pad : ∀ i : Fin 64, b64Char i ≠ '=' := by decide

/-- The alphabet map is injective on sextets, `Nat` version. -/
theorem b64Char_inj {i j : Nat} (hi : i < 64) (hj : j < 64)
    (h : b64Char i = b64Char j) : i = j := by
  have := b64Char_inj_fin ⟨i, hi⟩ ⟨j, hj⟩ h
  exact congrArg Fin.val this

/-- No sextet maps to the padding character, `Nat` version. -/
theorem b64Char_ne_pad' {i : Nat} (hi : i < 64) : b64Char i ≠ '=' :=
  b64Char_ne_pad ⟨i, hi⟩

/-- `base64.urlsafe_b64encode` on a byte string: three input bytes become
four alphabet characters; a final group of one or two bytes is completed
with `=` padding. -/
def b64urlChars : List Nat → List Char
  | [] => []
  | [a] => [b64Char (a / 4), b64Char (a % 4 * 16), '=', '=']
  | [a, b] => [b64Char (a / 4), b64Char (a % 4 * 16 + b / 16),
      b64Char (b % 16 * 4), '=']
  | a :: b :: c :: rest =>
    b64Char (a / 4) :: b64Char (a % 4 * 16 + b / 16) ::
      b64Char (b % 16 * 4 + c / 64) :: b64Char (c % 64) :: b64urlChars rest

/-- Base64url encoding is injective on byte strings. -/
theorem b64urlChars_inj : ∀ l1 l2 : List Nat, (∀ x ∈ l1, x < 256) →
    (∀ x ∈ l2, x < 256) → b64urlChars l1 = b64urlChars l2 → l1 = l2 := by
  intro l1
  induction l1 using b64urlChars.induct with
  | case1 =>
    intro l2 _ h2 h
    match l2 with
    | [] => rfl
    | [a] => simp [b64urlChars] at h
    | [a, b] => simp [b64urlChars] at h
    | a :: b :: c :: rest => simp [b64urlChars] at h
  | case2 a =>
    intro l2 h1 h2 h
    have ha : a < 256 := h1 a (by simp)
    match l2 with
    | [] => simp [b64urlChars] at h
    | [a'] =>
      have ha' : a' < 256 := h2 a' (by simp)
      simp only [b64urlChars, List.cons.injEq] at h
      obtain ⟨e1, e2, -⟩ := h
      have q1 := b64Char_inj (by omega) (by omega) e1
      have q2 := b64Char_inj (by omega) (by omega) e2
      have : a = a' := by omega
      simp [this]
    | [a', b'] =>
      have hb' : b' < 256 := h2 b' (by simp)
      simp only [b64urlChars, List.cons.injEq] at h
      obtain ⟨-, -, e3, -⟩ := h
      exact absurd e3.symm (b64Char_ne_pad' (by omega))
    | a' :: b' :: c' :: rest' =>
      have hc' : c' < 256 := h2 c' (by simp)
      simp only [b64urlChars, List.cons.injEq] at h
      obtain ⟨-, -, e3, -⟩ := h
      exact absurd e3.symm (b64Char_ne_pad' (by omega))
  | case3 a b =>
    intro l2 h1 h2 h
    have ha : a < 256 := h1 a (by simp)
    have hb : b < 256 := h1 b (by simp)
    match l2 with
    | [] => simp [b64urlChars] at h
    | [a'] =>
      simp only [b64urlChars, List.cons.injEq] at h
      obtain ⟨-, -, e3, -⟩ := h
      exact absurd e3 (b64Char_ne_pad' (by omega))
    | [a', b'] =>
      have ha' : a' < 256 := h2 a' (by simp)
      have hb' : b' < 256 := h2 b' (by simp)
      simp only [b64urlChars, List.cons.injEq] at h
      obtain ⟨e1, e2, e3, -⟩ := h
      have q1 := b64Char_inj (by omega) (by omega) e1
      have q2 := b64Char_inj (by omega) (by omega) e2
      have q3 := b64Char_inj (by omega) (by omega) e3
      have : a = a' := by omega
      have : b = b' := by omega
      simp_all
    | a' :: b' :: c' :: rest' =>
      have hc' : c' < 256 := h2 c' (by simp)
      simp only [b64urlChars, List.cons.injEq] at h
      obtain ⟨-, -, -, e4, -⟩ := h
      exact absurd e4.symm (b64Char_ne_pad' (by omega))
  | case4 a b c rest ih =>
    intro l2 h1 h2 h
    have ha : a < 256 := h1 a (by simp)
    have hb : b < 256 := h1 b (by simp)
    have hc : c < 256 := h1 c (by simp)
    match l2 with
    | [] => simp [b64urlChars] at h
    | [a'] =>
      have ha' : a' < 256 := h2 a' (by simp)
      simp only [b64urlChars, List.cons.injEq] at h
      obtain ⟨-, -, e3, -⟩ := h
      exact absurd e3 (b64Char_ne_pad' (by omega))
    | [a', b'] =>
      have hb' : b' < 256 := h2 b' (by simp)
      simp only [b64urlChars, List.cons.injEq] at h
      obtain ⟨-, -, -, e4, -⟩ := h
      exact absurd e4 (b64Char_ne_pad' (by omega))
    | a' :: b' :: c' :: rest' =>
      have ha' : a' < 256 := h2 a' (by simp)
      have hb' : b' < 256 := h2 b' (by simp)
      have hc' : c' < 256 := h2 c' (by simp)
      simp only [b64urlChars, List.cons.injEq] at h
      obtain ⟨e1, e2, e3, e4, e5⟩ := h
      have q1 := b64Char_inj (by omega) (by omega) e1
      have q2 := b64Char_inj (by omega) (by omega) e2
      have q3 := b64Char_inj (by omega) (by omega) e3
      have q4 := b64Char_inj (by omega) (by omega) e4
      have heq : rest = rest' := ih rest'
        (fun x hx => h1 x (by simp [hx])) (fun x hx => h2 x (by simp [hx])) e5
      have : a = a' := by omega
      have : b = b' := by omega
      have : c = c' := by omega
      simp_all

/-- `encode_id(raw_id)` of exporter.py, lines 65-69: UTF-8 encode, then
URL-safe base64 encode, then read the bytes back as an ASCII string. -/
def encode_id (raw_id : String) : String :=
  ⟨b64urlChars (stringToUtf8 raw_id)⟩

/-- Every byte of a UTF-8 encoded string is an octet. -/
theorem stringToUtf8_lt (s : String) : ∀ x ∈ stringToUtf8 s, x < 256 := by
  intro x hx
  rw [stringToUtf8, List.mem_flatMap] at hx
  obtain ⟨c, -, hc⟩ := hx
  exact utf8Bytes_lt c.toNat (charToNat_lt c) x hc

/-- C10: the identifier codec is injective — two identifier strings with
the same UTF-8-then-base64url encoding are equal, so no two distinct
things, submodels or elements can alias the same target-registry
address. -/
theorem c10_encode_id_injective (s t : String)
    (h : encode_id s = encode_id t) : s = t := by
  have hd : b64urlChars (stringToUtf8 s) = b64urlChars (stringToUtf8 t) :=
    congrArg String.data h
  have hu : stringToUtf8 s = stringToUtf8 t :=
    b64urlChars_inj _ _ (stringToUtf8_lt s) (stringToUtf8_lt t) hd
  have hdata : s.data = t.data := utf8_flatMap_inj s.data t.data hu
  cases s
  cases t
  exact congrArg String.mk hdata

/-- Witness for C10: the theorem applied at a concrete identifier. -/
theorem c10_encode_id_injective_witness : "thing:valve" = "thing:valve" :=
  c10_encode_id_injective "thing:valve" "thing:valve" rfl

/-- A JSON value, as produced by `json.load` / consumed by `json.dumps`.
Feature property bundles are `obj` nodes; the list order of an `obj`
models the dictionary's insertion order (keys are unique in a Python
dict). -/
inductive JVal where
  | null : JVal
  | bool (b : Bool) : JVal
  | num (n : Int) : JVal
  | str (s : String) : JVal
  | arr (l : List JVal) : JVal
  | obj (l : List (String × JVal)) : JVal

/-- JSON string escaping of one character, modelling the escapes
`json.dumps` emits for the characters that occur in this system's
identifiers and property values. -/
def escapeChar (c : Char) : String :=
  if c = '"' then "\\\""
  else if c = '\\' then "\\\\"
  else if c = '\n' then "\\n"
  else if c = '\t' then "\\t"
  else if c = '\r' then "\\r"
  else String.singleton c

/-- A JSON string literal with its surrounding quotes. -/
def jsonQuote (s : String) : String :=
  "\"" ++ String.join (s.data.map escapeChar) ++ "\""

/-- Comparison of rendered object fields by their key, the order
`sort_keys=True` sorts by. -/
def keyLe (a b : String × String) : Prop := a.1 ≤ b.1

instance : DecidableRel keyLe :=
  fun a b => inferInstanceAs (Decidable (a.1 ≤ b.1))

instance : IsTotal (String × String) keyLe := ⟨fun a b => le_total a.1 b.1⟩

instance : IsTrans (String × String) keyLe :=
  ⟨fun _ _ _ h1 h2 => le_trans h1 h2⟩

/-- The key sort of `json.dumps(..., sort_keys=True)`.  Python's sort and
insertion sort are both stable, so they agree on every input. -/
def sortFields (l : List (String × String)) : List (String × String) :=
  l.insertionSort keyLe

/-- One rendered `"key": value` member of a JSON object, with the default
`": "` separator of `json.dumps`. -/
def renderField (p : String × String) : String :=
  jsonQuote p.1 ++ ": " ++ p.2

mutual

/-- `json.dumps(v, sort_keys=True)` with the default `", "` / `": "`
separators: object members are rendered in sorted key order at every
nesting level. -/
def dumps : JVal → String
  | .null => "null"
  | .bool true => "true"
  | .bool false => "false"
  | .num n => toString n
  | .str s => jsonQuote s
  | .arr l => "[" ++ String.intercalate ", " (dumpsArr l) ++ "]"
  | .obj l => "\x7b" ++
      String.intercalate ", " ((sortFields (dumpsObj l)).map renderField) ++
      "\x7d"

/-- The rendered elements of a JSON array. -/
def dumpsArr : List JVal → List String
  | [] => []
  | v :: vs => dumps v :: dumpsArr vs

/-- The members of a JSON object with their values rendered, still in
insertion order (the key sort happens afterwards and only looks at the
keys, so rendering values first agrees with `json.dumps`). -/
def dumpsObj : List (String × JVal) → List (String × String)
  | [] => []
  | p :: ps => (p.1, dumps p.2) :: dumpsObj ps

end

/-- Two key-sorted renderings of the same members with pairwise distinct
keys are identical. -/
theorem sorted_perm_nodupkeys_eq :
    ∀ (s1 s2 : List (String × String)), s1.Perm s2 →
      s1.Sorted keyLe → s2.Sorted keyLe → (s1.map Prod.fst).Nodup →
      s1 = s2 := by
  intro s1
  induction s1 with
  | nil => intro s2 hp _ _ _; exact (hp.nil_eq).symm ▸ rfl
  | cons a t1 ih =>
    intro s2 hp hs1 hs2 hnd
    cases s2 with
    | nil => exact absurd hp.symm (by simp)
    | cons b t2 =>
      rcases List.sorted_cons.mp hs1 with ⟨ha1, ht1⟩
      rcases List.sorted_cons.mp hs2 with ⟨hb2, ht2⟩
      have hab : a = b := by
        have hmem_a : a ∈ b :: t2 := hp.mem_iff.mp (by simp)
        have hmem_b : b ∈ a :: t1 := hp.mem_iff.mpr (by simp)
        rcases List.mem_cons.mp hmem_a with h | h
        · exact h
        · rcases List.mem_cons.mp hmem_b with h' | h'
          · exact h'.symm
          · have h1 : keyLe a b := ha1 b h'
            have h2 : keyLe b a := hb2 a h
            have hkey : a.1 = b.1 := le_antisymm h1 h2
            exfalso
            rcases List.nodup_cons.mp hnd with ⟨hna, -⟩
            exact hna (hkey ▸ (List.mem_map_of_mem Prod.fst h'))
      subst hab
      have : t1 = t2 := ih t2 hp.cons_inv ht1 ht2 (List.nodup_cons.mp hnd).2
      rw [this]

/-- The key sort maps two insertion orders of the same members to the
same rendering. -/
theorem sortFields_eq_of_perm (l1 l2 : List (String × String))
    (hp : l1.Perm l2) (hnd : (l1.map Prod.fst).Nodup) :
    sortFields l1 = sortFields l2 := by
  apply sorted_perm_nodupkeys_eq
  · exact (List.perm_insertionSort keyLe l1).trans
      (hp.trans (List.perm_insertionSort keyLe l2).symm)
  · exact List.sorted_insertionSort keyLe l1
  · exact List.sorted_insertionSort keyLe l2
  · exact (((List.perm_insertionSort keyLe l1).map Prod.fst).nodup_iff).mpr hnd

/-- `dumpsObj` is the member-wise rendering map. -/
theorem dumpsObj_eq_map (l : List (String × JVal)) :
    dumpsObj l = l.map (fun p => (p.1, dumps p.2)) := by
  induction l with
  | nil => simp [dumpsObj]
  | cons p ps ih => simp [dumpsObj, ih]

/-- Serializing an object is insertion-order independent when its keys
are pairwise distinct. -/
theorem dumps_obj_perm (l1 l2 : List (String × JVal)) (hp : l1.Perm l2)
    (hnd : (l1.map Prod.fst).Nodup) :
    dumps (.obj l1) = dumps (.obj l2) := by
  have hperm : (dumpsObj l1).Perm (dumpsObj l2) := by
    rw [dumpsObj_eq_map, dumpsObj_eq_map]
    exact hp.map _
  have hkeys : (dumpsObj l1).map Prod.fst = l1.map Prod.fst := by
    rw [dumpsObj_eq_map]
    simp
  have : sortFields (dumpsObj l1) = sortFields (dumpsObj l2) :=
    sortFields_eq_of_perm _ _ hperm (by rw [hkeys]; exact hnd)
  simp only [dumps, this]

/-- The signer's canonical bytes:
`json.dumps(payload, sort_keys=True).encode("utf-8")` in
sign.py, `sign_json_payload`. -/
def sign_canonical_bytes (payload : List (String × JVal)) : List Nat :=
  stringToUtf8 (dumps (.obj payload))

/-- The verifier's canonical bytes, exporter.py lines 85-87: drop the
`signature` member, then
`json.dumps(payload, sort_keys=True).encode("utf-8")`. -/
def verify_canonical_bytes (props : List (String × JVal)) : List Nat :=
  stringToUtf8 (dumps (.obj (props.filter (fun p => p.1 ≠ "signature"))))

/-- C8: canonical serialization is insertion-order independent on both
sides and shared between them — for two insertion orders of the same
property members (keys pairwise distinct), the signer's bytes coincide,
the verifier's bytes coincide, and the verifier's bytes are exactly the
signer's bytes of the signature-free member list. -/
theorem c8_canonicalization_stable (l1 l2 : List (String × JVal))
    (hp : l1.Perm l2) (hnd : (l1.map Prod.fst).Nodup) :
    sign_canonical_bytes l1 = sign_canonical_bytes l2 ∧
      verify_canonical_bytes l1 = verify_canonical_bytes l2 ∧
      verify_canonical_bytes l1 =
        sign_canonical_bytes (l1.filter (fun p => p.1 ≠ "signature")) := by
  refine ⟨?_, ?_, rfl⟩
  · exact congrArg stringToUtf8 (dumps_obj_perm l1 l2 hp hnd)
  · apply congrArg stringToUtf8
    apply dumps_obj_perm
    · exact hp.filter _
    · exact hnd.sublist ((List.filter_sublist l1).map Prod.fst)

/-- Two insertion orders of the same two-member property bundle. -/
def demoBundle1 : List (String × JVal) :=
  [("open", .bool true), ("signature", .str "sig")]

/-- The other insertion order of `demoBundle1`. -/
def demoBundle2 : List (String × JVal) :=
  [("signature", .str "sig"), ("open", .bool true)]

/-- Witness for C8 at a concrete two-member bundle. -/
theorem c8_canonicalization_stable_witness :
    sign_canonical_bytes demoBundle1 = sign_canonical_bytes demoBundle2 ∧
      verify_canonical_bytes demoBundle1 = verify_canonical_bytes demoBundle2 ∧
      verify_canonical_bytes demoBundle1 =
        sign_canonical_bytes
          (demoBundle1.filter (fun p => p.1 ≠ "signature")) :=
  c8_canonicalization_stable demoBundle1 demoBundle2
    (List.Perm.swap _ _ _) (by decide)

/-- An opaque handle for a parsed RSA public key. -/
structure PubKey where
  keyId : Nat
deriving DecidableEq

/-- One feature as returned by the source registry
(`{"properties": {...}}`).  `properties = none` models a feature dict
without a `properties` key, on which `feature_data["properties"]` raises
`KeyError`. -/
structure Feature where
  properties : Option (List (String × JVal)) := none

/-- The oracles behind the cryptographic library calls of
`verify_feature_signature`: `keyAt path` is `none` when
`os.path.exists(path)` is false, `some none` when
`load_pem_public_key` raises on the file's content, `some (some k)`
when it parses; `decodeB64 v` is `none` when `base64.b64decode(v)`
raises; `check k sig payload` is the outcome of `public_key.verify`
(false models `InvalidSignature` being raised). -/
structure CryptoEnv where
  keyAt : String → Option (Option PubKey)
  decodeB64 : JVal → Option (List Nat)
  check : PubKey → List Nat → List Nat → Bool

/-- Python truthiness of a JSON value (`if not signature_b64`). -/
def jfalsy : JVal → Bool
  | .null => true
  | .bool b => !b
  | .num n => n == 0
  | .str s => s == ""
  | .arr l => l.isEmpty
  | .obj l => l.isEmpty

/-- The body of `verify_feature_signature` (exporter.py lines 75-116),
i.e. everything inside its `try`.  `.error ()` marks the exception paths
the outer handler turns into `False`: a feature dict without
`properties` (KeyError), an unparsable key file, and a cryptographic
mismatch (`InvalidSignature`).  The other failure paths return `false`
directly in the source, before any exception arises. -/
def verifyBody (env : CryptoEnv) (public_key_path : String)
    (fd : Feature) : Except Unit Bool := do
  let props ← match fd.properties with
    | none => Except.error ()
    | some p => Except.ok p
  match props.lookup "signature" with
  | none => pure false
  | some sigVal =>
    if jfalsy sigVal then pure false
    else
      match env.decodeB64 sigVal with
      | none => pure false
      | some sigBytes =>
        match env.keyAt public_key_path with
        | none => pure false
        | some none => Except.error ()
        | some (some k) =>
          if env.check k sigBytes (verify_canonical_bytes props) then
            pure true
          else Except.error ()

/-- `verify_feature_signature(feature_data, public_key_path)` of
exporter.py, lines 72-121: the whole body runs under
`try: ... except Exception: return False`, so exceptions of the body
normalize to `false`. -/
def verify_feature_signature (env : CryptoEnv) (fd : Feature)
    (public_key_path : String) : Bool :=
  match verifyBody env public_key_path fd with
  | .ok b => b
  | .error _ => false

/-- C4: the signature gate is total with boolean outcome and returns
`true` exactly on the full success path — the feature dict has a
`properties` member carrying a non-falsy `signature`, the signature
base64-decodes, the key file exists and parses, and the cryptographic
check accepts the canonical signature-free payload.  In every other
situation (missing properties, missing or empty signature, malformed
base64, missing or unparsable key file, cryptographic mismatch — the
exception paths included) the result is `false`, never a thrown error. -/
theorem c4_verify_never_raises (env : CryptoEnv) (fd : Feature)
    (path : String) :
    verify_feature_signature env fd path = true ↔
      ∃ props sigVal sigBytes k,
        fd.properties = some props ∧
        props.lookup "signature" = some sigVal ∧
        jfalsy sigVal = false ∧
        env.decodeB64 sigVal = some sigBytes ∧
        env.keyAt path = some (some k) ∧
        env.check k sigBytes (verify_canonical_bytes props) = true := by
  constructor
  · intro h
    unfold verify_feature_signature verifyBody at h
    cases hp : fd.properties with
    | none => simp [hp] at h
    | some props =>
      simp only [hp, exceptBind_ok] at h
      cases hl : props.lookup "signature" with
      | none => simp [hl] at h
      | some sigVal =>
        simp only [hl] at h
        cases hf : jfalsy sigVal with
        | true => simp [hf] at h
        | false =>
          simp only [hf, Bool.false_eq_true, if_false] at h
          cases hd : env.decodeB64 sigVal with
          | none => simp [hd] at h
          | some sigBytes =>
            simp only [hd] at h
            cases hk : env.keyAt path with
            | none => simp [hk] at h
            | some ko =>
              cases ko with
              | none => simp [hk] at h
              | some k =>
                simp only [hk] at h
                cases hc : env.check k sigBytes (verify_canonical_bytes props)
                  with
                | false => simp [hc] at h
                | true =>
                  exact ⟨props, sigVal, sigBytes, k, rfl, hl, hf, hd, rfl, hc⟩
  · rintro ⟨props, sigVal, sigBytes, k, hp, hl, hf, hd, hk, hc⟩
    unfold verify_feature_signature verifyBody
    simp [hp, hl, hf, hd, hk, hc]

/-- One thing as listed by `get_ditto_things`; `thingId = none` models an
entry without a `thingId` key (`thing.get("thingId")` is `None`). -/
structure Thing where
  thingId : Option String := none

/-- The registry responses a cycle observes, all as oracles: `thingsOf`
and `featuresOf` are the source-registry reads of `get_ditto_things` /
`get_ditto_features` (`.error` models a raised transport error),
`shellExists` / `submodelExists` are the target-registry read-checks,
`crypto` backs the signature gate, and the three delete oracles give the
HTTP status of the corresponding delete call (`.error` models
`requests.delete` itself raising). -/
structure World where
  thingsOf : String → Except Unit (List Thing)
  featuresOf : String → Option String → Except Unit (List (String × Feature))
  shellExists : String → Bool
  submodelExists : String → Bool
  crypto : CryptoEnv
  deleteShellStatus : String → Except Unit Nat
  deleteSubmodelStatus : String → Except Unit Nat
  deleteElementStatus : String → String → Except Unit Nat

/-- One observable target-registry mutation (or per-source error log) of
a cycle, in program order. -/
inductive Effect where
  | shellCreated (tid : String)
  | submodelCreated (tid smId : String)
  | elementUpserted (smId key : String) (value : JVal)
  | shellDeleteAttempt (tid : String) (ok : Bool)
  | submodelDeleteAttempt (smId : String) (ok : Bool)
  | elementDeleteAttempt (smId elemId : String) (ok : Bool)
  | errorLogged (srcName : String)

/-- Python's rendering of an optional string in an f-string
(`f"{thing_id}:{feature_id}"` renders `None` as `"None"`). -/
def pyOptStr : Option String → String
  | none => "None"
  | some s => s

/-- Lines 441-442 of exporter.py: the read-check-then-create of the
shell for thing `t`. -/
def ensureShellEffs (w : World) (t : String) : List Effect :=
  if w.shellExists t then [] else [.shellCreated t]

/-- Lines 448-449 of exporter.py: the read-check-then-create of the
submodel `smId` linked to the shell of `t`. -/
def ensureSubmodelEffs (w : World) (t smId : String) : List Effect :=
  if w.submodelExists smId then [] else [.submodelCreated t smId]

/-- Lines 461-469 of exporter.py: the selector-filtered property set of
a feature — everything for a `"*"` selector, otherwise the properties
whose key occurs in the selector, in source order. -/
def filteredProps (props : List String) (fd : Feature) :
    List (String × JVal) :=
  let allProps := fd.properties.getD []
  if props.contains "*" then allProps
  else allProps.filter (fun p => props.contains p.1)

/-- Lines 445-479 of exporter.py: what happens to one configured feature
after the shell step — ensure the submodel, then either skip the
property writes (signature gate enabled and failing) or upsert each
filtered property; `thing_has_exports` is true from here on. -/
def processFeatureTail (cfg : Config) (w : World) (tid : Option String)
    (fid : String) (fd : Feature) (props : List String)
    (shellEffs : List Effect) : List Effect × Bool :=
  let smId := pyOptStr tid ++ ":" ++ fid
  let smEffs := ensureSubmodelEffs w (pyOptStr tid) smId
  if cfg.verify_signatures &&
      !verify_feature_signature w.crypto fd cfg.public_key_path then
    (shellEffs ++ smEffs, true)
  else
    (shellEffs ++ smEffs ++
      (filteredProps props fd).map
        (fun p => Effect.elementUpserted smId p.1 p.2), true)

/-- Lines 432-479 of exporter.py: processing of one feature inside the
reconciliation loop.  Resolver errors propagate (aborting the source);
an unconfigured feature contributes nothing; otherwise the shell is
ensured on the thing's first configured feature (`encode_id(None)`
raising when the thing has no id) and the rest of the feature step
runs.  Target writes themselves are shims modelled as always
succeeding. -/
def processFeature (cfg : Config) (now : Int) (w : World) (su : String)
    (tid : Option String) (hasExports : Bool) (fid : String) (fd : Feature) :
    Except Unit (List Effect × Bool) :=
  match get_export_config su tid fid cfg now with
  | .error e => .error e
  | .ok none => .ok ([], hasExports)
  | .ok (some props) =>
    if hasExports then .ok (processFeatureTail cfg w tid fid fd props [])
    else
      match tid with
      | none => .error ()
      | some t =>
        .ok (processFeatureTail cfg w tid fid fd props (ensureShellEffs w t))

/-- The `for feature_id, feature_details in features.items()` loop,
threading `thing_has_exports`.  The boolean result flags an exception
(which aborts the enclosing source); effects before the faulting feature
within earlier iterations are preserved by the caller. -/
def processFeatures (cfg : Config) (now : Int) (w : World) (su : String)
    (tid : Option String) :
    Bool → List (String × Feature) → List Effect × Bool
  | _, [] => ([], false)
  | he, (fid, fd) :: rest =>
    match processFeature cfg now w su tid he fid fd with
    | .error _ => ([], true)
    | .ok (effs, he2) =>
      match processFeatures cfg now w su tid he2 rest with
      | (restEffs, ab) => (effs ++ restEffs, ab)

/-- One thing of the reconciliation loop: fetch its features (a raise
aborts the source), then process them. -/
def processThing (cfg : Config) (now : Int) (w : World) (su : String)
    (t : Thing) : List Effect × Bool :=
  match w.featuresOf su t.thingId with
  | .error _ => ([], true)
  | .ok feats => processFeatures cfg now w su t.thingId false feats

/-- The `for thing in things` loop: an exception while processing a thing
aborts the remaining things of this source (the `try` is per source, not
per thing), keeping the effects already performed. -/
def processThings (cfg : Config) (now : Int) (w : World) (su : String) :
    List Thing → List Effect × Bool
  | [] => ([], false)
  | t :: rest =>
    match processThing cfg now w su t with
    | (effs, true) => (effs, true)
    | (effs, false) =>
      match processThings cfg now w su rest with
      | (effs2, ab2) => (effs ++ effs2, ab2)

/-- Lines 410-483 of exporter.py: one source of the reconciliation pass
under its own `try/except` — any exception is logged for this source and
processing continues with the next source. -/
def processSource (cfg : Config) (now : Int) (w : World)
    (sc : SourceRule) : List Effect :=
  match w.thingsOf sc.source_url with
  | .error _ => [.errorLogged sc.source_name]
  | .ok things =>
    match processThings cfg now w sc.source_url things with
    | (effs, ab) =>
      effs ++ if ab then [.errorLogged sc.source_name] else []

/-- The `for source_config in sources_config` reconciliation loop. -/
def reconcileSources (cfg : Config) (now : Int) (w : World) :
    List SourceRule → List Effect
  | [] => []
  | sc :: rest =>
    processSource cfg now w sc ++ reconcileSources cfg now w rest

/-- The reconciliation pass of one scheduler cycle: skipped entirely when
no target-registry URL is configured. -/
def reconcile (cfg : Config) (now : Int) (w : World) : List Effect :=
  match cfg.basyx_url with
  | none => []
  | some _ => reconcileSources cfg now w cfg.sources

/-- One entry of `items_to_remove` in `cleanup_basyx_resources`:
`('shell', id)` or `('submodel', id)`. -/
inductive CItem where
  | shell (tid : String)
  | submodel (smId : String)
deriving DecidableEq, Repr

/-- Lines 262-266 of exporter.py: the `thing_has_exports` probe of the
cleanup pass — resolve features in order, stopping at the first
configured one; a resolver error propagates (aborting the whole
cleanup scan). -/
def anyExports (cfg : Config) (now : Int) (su : String) (tid : String) :
    List (String × Feature) → Except Unit Bool
  | [] => .ok false
  | (fid, _) :: rest =>
    match get_export_config su (some tid) fid cfg now with
    | .error e => .error e
    | .ok (some _) => .ok true
    | .ok none => anyExports cfg now su tid rest

/-- Lines 280-299 of exporter.py: the per-feature queueing when the thing
has at least one configured feature — an unconfigured feature queues its
submodel; a configured feature with a selector not containing `"*"`
queues every source property name absent from the selector. -/
def scanConfigured (cfg : Config) (now : Int) (su : String) (tid : String) :
    List (String × Feature) →
      Except Unit (List CItem × List (String × String))
  | [] => .ok ([], [])
  | (fid, fd) :: rest =>
    match get_export_config su (some tid) fid cfg now with
    | .error e => .error e
    | .ok none =>
      match scanConfigured cfg now su tid rest with
      | .error e => .error e
      | .ok (items, elems) =>
        .ok (CItem.submodel (tid ++ ":" ++ fid) :: items, elems)
    | .ok (some props) =>
      let cur : List (String × String) :=
        if props.contains "*" then []
        else (((fd.properties.getD []).map Prod.fst).filter
          (fun k => !props.contains k)).map (fun k => (tid ++ ":" ++ fid, k))
      match scanConfigured cfg now su tid rest with
      | .error e => .error e
      | .ok (items, elems) => .ok (items, cur ++ elems)

/-- Lines 253-299 of exporter.py: the cleanup scan of one thing.  A
falsy `thingId` is skipped; a fully unconfigured thing queues its shell
and the submodels of all its live source features; otherwise the
per-feature queueing applies. -/
def scanThing (cfg : Config) (now : Int) (w : World) (su : String)
    (t : Thing) : Except Unit (List CItem × List (String × String)) :=
  match t.thingId with
  | none => .ok ([], [])
  | some tid =>
    if tid = "" then .ok ([], [])
    else
      match w.featuresOf su (some tid) with
      | .error e => .error e
      | .ok feats =>
        match anyExports cfg now su tid feats with
        | .error e => .error e
        | .ok false =>
          .ok (CItem.shell tid ::
            feats.map (fun p => CItem.submodel (tid ++ ":" ++ p.1)), [])
        | .ok true => scanConfigured cfg now su tid feats

/-- The `for thing in things` loop of the cleanup scan, queueing in
traversal order. -/
def scanThings (cfg : Config) (now : Int) (w : World) (su : String) :
    List Thing → Except Unit (List CItem × List (String × String))
  | [] => .ok ([], [])
  | t :: rest =>
    match scanThing cfg now w su t with
    | .error e => .error e
    | .ok (i1, e1) =>
      match scanThings cfg now w su rest with
      | .error e => .error e
      | .ok (i2, e2) => .ok (i1 ++ i2, e1 ++ e2)

/-- The cleanup scan of one source: fetch its things (a raise propagates
to the single `try` wrapping the whole cleanup), then scan each thing. -/
def scanSource (cfg : Config) (now : Int) (w : World) (sc : SourceRule) :
    Except Unit (List CItem × List (String × String)) :=
  match w.thingsOf sc.source_url with
  | .error e => .error e
  | .ok things => scanThings cfg now w sc.source_url things

/-- The `for source_config in sources_config` loop of the cleanup scan.
All sources share the one `try` of `cleanup_basyx_resources`: an error
in any source discards the whole queue. -/
def scanSources (cfg : Config) (now : Int) (w : World) :
    List SourceRule → Except Unit (List CItem × List (String × String))
  | [] => .ok ([], [])
  | sc :: rest =>
    match scanSource cfg now w sc with
    | .error e => .error e
    | .ok (i1, e1) =>
      match scanSources cfg now w rest with
      | .error e => .error e
      | .ok (i2, e2) => .ok (i1 ++ i2, e1 ++ e2)

/-- The success test of the delete helpers (lines 170-209): only an HTTP
status of exactly 200 counts as a successful deletion; any other status
— 404 included — and any raised transport error yield `False`. -/
def deleteStatusToBool : Except Unit Nat → Bool
  | .ok s => s == 200
  | .error _ => false

/-- `delete_basyx_shell(thing_id, basyx_url)` of exporter.py. -/
def delete_basyx_shell (w : World) (tid : String) : Bool :=
  deleteStatusToBool (w.deleteShellStatus tid)

/-- `delete_basyx_submodel(submodel_id, basyx_url)` of exporter.py. -/
def delete_basyx_submodel (w : World) (smId : String) : Bool :=
  deleteStatusToBool (w.deleteSubmodelStatus smId)

/-- `delete_basyx_element(submodel_id, element_id, basyx_url)` of
exporter.py. -/
def delete_basyx_element (w : World) (smId elemId : String) : Bool :=
  deleteStatusToBool (w.deleteElementStatus smId elemId)

/-- Executing one queued `items_to_remove` entry (lines 306-312). -/
def execItem (w : World) : CItem → Effect
  | .shell tid => .shellDeleteAttempt tid (delete_basyx_shell w tid)
  | .submodel sm => .submodelDeleteAttempt sm (delete_basyx_submodel w sm)

/-- Lines 301-317 of exporter.py: execute every queued deletion — items
first, then elements — recording each attempt with its success flag;
no individual failure stops the remaining deletions. -/
def execQueues (w : World)
    (q : List CItem × List (String × String)) : List Effect :=
  q.1.map (execItem w) ++
    q.2.map (fun p =>
      Effect.elementDeleteAttempt p.1 p.2 (delete_basyx_element w p.1 p.2))

/-- `cleanup_basyx_resources(config)` of exporter.py, lines 226-323: a
missing target URL skips the pass; the scan over all sources runs under
one `try`, so a raise anywhere discards the queue and nothing is
deleted; otherwise all queued deletions are executed. -/
def cleanup_basyx_resources (cfg : Config) (now : Int) (w : World) :
    List Effect :=
  match cfg.basyx_url with
  | none => []
  | some _ =>
    match scanSources cfg now w cfg.sources with
    | .error _ => []
    | .ok q => execQueues w q

/-- The delete helpers succeed exactly on status 200. -/
theorem deleteStatusToBool_iff (x : Except Unit Nat) :
    deleteStatusToBool x = true ↔ x = .ok 200 := by
  cases x with
  | error e => simp [deleteStatusToBool]
  | ok s => simp [deleteStatusToBool]

/-- A crypto environment in which every verification input fails. -/
def idleCrypto : CryptoEnv :=
  { keyAt := fun _ => none
    decodeB64 := fun _ => none
    check := fun _ _ _ => false }

/-- A world whose delete calls all answer with the one HTTP status `s`. -/
def statusWorld (s : Nat) : World :=
  { thingsOf := fun _ => .ok []
    featuresOf := fun _ _ => .ok []
    shellExists := fun _ => false
    submodelExists := fun _ => false
    crypto := idleCrypto
    deleteShellStatus := fun _ => .ok s
    deleteSubmodelStatus := fun _ => .ok s
    deleteElementStatus := fun _ _ => .ok s }

/-- C7 (counterexample): a delete answered with status 404 is NOT treated
the same as an actual deletion — `delete_basyx_shell` returns `False`
on 404 (the deletion is not counted as a success) and `True` on 200,
because the helpers test `response.status_code == 200` only. -/
theorem c7_counterexample :
    delete_basyx_shell (statusWorld 404) "t" = false ∧
      delete_basyx_shell (statusWorld 200) "t" = true ∧
      false ≠ true :=
  ⟨rfl, rfl, by simp⟩

/-- C7 (amended): queued deletions are attempted unconditionally — every
queued shell, submodel and element deletion produces exactly one attempt,
regardless of the others' outcomes, so a 404 (or any failure) never
aborts the pass — but a deletion counts as successful exactly when the
registry answers status 200; a 404-equivalent answer is recorded as an
unsuccessful (though non-fatal) deletion, not as success. -/
theorem c7_deletes_attempted_404_is_failure (w : World)
    (items : List CItem) (elems : List (String × String)) :
    (execQueues w (items, elems)).length = items.length + elems.length ∧
      (∀ tid, delete_basyx_shell w tid = true ↔
        w.deleteShellStatus tid = .ok 200) ∧
      (∀ smId, delete_basyx_submodel w smId = true ↔
        w.deleteSubmodelStatus smId = .ok 200) ∧
      (∀ smId elemId, delete_basyx_element w smId elemId = true ↔
        w.deleteElementStatus smId elemId = .ok 200) := by
  refine ⟨by simp [execQueues], fun tid => ?_, fun smId => ?_,
    fun smId elemId => ?_⟩
  · exact deleteStatusToBool_iff _
  · exact deleteStatusToBool_iff _
  · exact deleteStatusToBool_iff _

/-- A world in which listing the things of source `s1` raises a
transport error, while source `s2` reports one thing `t` carrying one
feature `f` with no properties. -/
def wFaultyS1 : World :=
  { thingsOf := fun u =>
      if u = "s1" then .error () else .ok [{ thingId := some "t" }]
    featuresOf := fun _ _ => .ok [("f", { properties := some [] })]
    shellExists := fun _ => false
    submodelExists := fun _ => false
    crypto := idleCrypto
    deleteShellStatus := fun _ => .ok 200
    deleteSubmodelStatus := fun _ => .ok 200
    deleteElementStatus := fun _ _ => .ok 200 }

/-- A policy listing the faulty source `s1` before `s2`, configuring no
thing of either (so everything of `s2` is subject to cleanup). -/
def cfgTwoSources : Config :=
  { sources := [{ source_url := "s1" }, { source_url := "s2" }]
    basyx_url := some "b" }

/-- The same policy restricted to the healthy source `s2`. -/
def cfgOnlyS2 : Config :=
  { sources := [{ source_url := "s2" }]
    basyx_url := some "b" }

/-- C3 (counterexample): in the cleanup pass an error in one source is
NOT contained to that source.  With the faulty `s1` listed first, the
whole cleanup performs no deletion at all — the unconfigured thing of
the healthy `s2` is left untouched — although cleaning `s2` alone would
delete its shell and feature submodel.  (The single `try` of
`cleanup_basyx_resources` wraps the loop over all sources.) -/
theorem c3_counterexample :
    cleanup_basyx_resources cfgTwoSources 0 wFaultyS1 = [] ∧
      cleanup_basyx_resources cfgOnlyS2 0 wFaultyS1 =
        [.shellDeleteAttempt "t" true, .submodelDeleteAttempt "t:f" true] :=
  ⟨rfl, rfl⟩

/-- C3 (amended): failures are isolated per source in the reconciliation
pass only — its effects over any source-list split are the concatenation
of the parts, so an error in an earlier source never changes what later
sources do.  In the cleanup pass a raised error while scanning any
source aborts the whole pass: no queued deletion of any source is
executed in that cycle. -/
theorem c3_per_source_isolation_amended :
    (∀ (cfg : Config) (now : Int) (w : World) (l1 l2 : List SourceRule),
      reconcileSources cfg now w (l1 ++ l2) =
        reconcileSources cfg now w l1 ++ reconcileSources cfg now w l2) ∧
      (∀ (cfg : Config) (now : Int) (w : World),
        scanSources cfg now w cfg.sources = .error () →
          cleanup_basyx_resources cfg now w = []) := by
  constructor
  · intro cfg now w l1 l2
    induction l1 with
    | nil => simp [reconcileSources]
    | cons sc rest ih => simp [reconcileSources, ih]
  · intro cfg now w h
    unfold cleanup_basyx_resources
    cases cfg.basyx_url with
    | none => rfl
    | some b => simp [h]

/-- Witness for the amended C3 at the concrete faulty two-source setup. -/
theorem c3_per_source_isolation_amended_witness :
    cleanup_basyx_resources cfgTwoSources 0 wFaultyS1 = [] :=
  c3_per_source_isolation_amended.2 cfgTwoSources 0 wFaultyS1 rfl

/-- Whether an effect removes something from the target registry. -/
def Effect.isDelete : Effect → Bool
  | .shellDeleteAttempt _ _ => true
  | .submodelDeleteAttempt _ _ => true
  | .elementDeleteAttempt _ _ _ => true
  | _ => false

/-- Shell ensuring emits creations only. -/
theorem ensureShellEffs_noDeletes (w : World) (t : String) :
    ∀ e ∈ ensureShellEffs w t, e.isDelete = false := by
  unfold ensureShellEffs
  split <;> simp [Effect.isDelete]

/-- Submodel ensuring emits creations only. -/
theorem ensureSubmodelEffs_noDeletes (w : World) (t smId : String) :
    ∀ e ∈ ensureSubmodelEffs w t smId, e.isDelete = false := by
  unfold ensureSubmodelEffs
  split <;> simp [Effect.isDelete]

/-- The feature tail emits creations and upserts only. -/
theorem processFeatureTail_noDeletes (cfg : Config) (w : World)
    (tid : Option String) (fid : String) (fd : Feature)
    (props : List String) (shellEffs : List Effect)
    (hs : ∀ e ∈ shellEffs, e.isDelete = false) :
    ∀ e ∈ (processFeatureTail cfg w tid fid fd props shellEffs).1,
      e.isDelete = false := by
  unfold processFeatureTail
  split
  · intro e he
    rcases List.mem_append.mp he with he | he
    · exact hs e he
    · exact ensureSubmodelEffs_noDeletes w _ _ e he
  · intro e he
    rcases List.mem_append.mp he with he | he
    · rcases List.mem_append.mp he with he | he
      · exact hs e he
      · exact ensureSubmodelEffs_noDeletes w _ _ e he
    · rcases List.mem_map.mp he with ⟨p, -, rfl⟩
      rfl

/-- No single reconciliation feature step emits a deletion. -/
theorem processFeature_noDeletes (cfg : Config) (now : Int) (w : World)
    (su : String) (tid : Option String) (he : Bool) (fid : String)
    (fd : Feature) (effs : List Effect) (b : Bool)
    (h : processFeature cfg now w su tid he fid fd = .ok (effs, b)) :
    ∀ e ∈ effs, e.isDelete = false := by
  unfold processFeature at h
  cases hr : get_export_config su tid fid cfg now with
  | error e0 => rw [hr] at h; cases h
  | ok o =>
    rw [hr] at h
    cases o with
    | none =>
      simp only [Except.ok.injEq, Prod.mk.injEq] at h
      rw [← h.1]
      intro e hee
      cases hee
    | some props =>
      simp only at h
      cases hhe : he with
      | true =>
        rw [hhe] at h
        simp only [if_true, Except.ok.injEq] at h
        have heq : effs = (processFeatureTail cfg w tid fid fd props []).1 := by
          rw [h]
        rw [heq]
        exact processFeatureTail_noDeletes cfg w tid fid fd props []
          (by intro e hee; cases hee)
      | false =>
        rw [hhe] at h
        simp only [Bool.false_eq_true, if_false] at h
        cases htid : tid with
        | none => rw [htid] at h; cases h
        | some t =>
          rw [htid] at h
          simp only [Except.ok.injEq] at h
          have heq : effs =
              (processFeatureTail cfg w (some t) fid fd props
                (ensureShellEffs w t)).1 := by
            rw [h]
          rw [heq]
          exact processFeatureTail_noDeletes cfg w (some t) fid fd props
            (ensureShellEffs w t) (ensureShellEffs_noDeletes w t)

/-- No feature loop emits a deletion. -/
theorem processFeatures_noDeletes (cfg : Config) (now : Int) (w : World)
    (su : String) (tid : Option String) :
    ∀ (he : Bool) (feats : List (String × Feature)),
      ∀ e ∈ (processFeatures cfg now w su tid he feats).1,
        e.isDelete = false := by
  intro he feats
  induction feats generalizing he with
  | nil => intro e hee; cases hee
  | cons p rest ih =>
    intro e hee
    rw [show p = (p.1, p.2) from rfl] at hee
    unfold processFeatures at hee
    revert hee
    cases hp : processFeature cfg now w su tid he p.1 p.2 with
    | error e0 => intro hee; cases hee
    | ok r =>
      obtain ⟨effs0, he2⟩ := r
      cases hrest : processFeatures cfg now w su tid he2 rest with
      | mk restEffs ab =>
        intro hee
        simp only at hee
        rcases List.mem_append.mp hee with hee | hee
        · exact processFeature_noDeletes cfg now w su tid he p.1 p.2 effs0
            he2 (by rw [hp]) e hee
        · exact ih he2 e hee

/-- No thing of the reconciliation loop emits a deletion. -/
theorem processThing_noDeletes (cfg : Config) (now : Int) (w : World)
    (su : String) (t : Thing) :
    ∀ e ∈ (processThing cfg now w su t).1, e.isDelete = false := by
  unfold processThing
  cases w.featuresOf su t.thingId with
  | error e0 => intro e hee; cases hee
  | ok feats =>
    intro e hee
    exact processFeatures_noDeletes cfg now w su t.thingId false feats e hee

/-- No thing loop emits a deletion. -/
theorem processThings_noDeletes (cfg : Config) (now : Int) (w : World)
    (su : String) :
    ∀ things : List Thing,
      ∀ e ∈ (processThings cfg now w su things).1, e.isDelete = false := by
  intro things
  induction things with
  | nil => intro e hee; cases hee
  | cons t rest ih =>
    intro e hee
    unfold processThings at hee
    revert hee
    cases hp : processThing cfg now w su t with
    | mk effs ab =>
      cases ab with
      | true =>
        intro hee
        simp only at hee
        have := processThing_noDeletes cfg now w su t e
        rw [hp] at this
        exact this hee
      | false =>
        cases hrest : processThings cfg now w su rest with
        | mk effs2 ab2 =>
          intro hee
          simp only at hee
          rcases List.mem_append.mp hee with hee | hee
          · have := processThing_noDeletes cfg now w su t e
            rw [hp] at this
            exact this hee
          · have := ih e
            rw [hrest] at this
            exact this hee

/-- No source of the reconciliation pass emits a deletion. -/
theorem processSource_noDeletes (cfg : Config) (now : Int) (w : World)
    (sc : SourceRule) :
    ∀ e ∈ processSource cfg now w sc, e.isDelete = false := by
  unfold processSource
  cases w.thingsOf sc.source_url with
  | error e0 => simp [Effect.isDelete]
  | ok things =>
    cases hp : processThings cfg now w sc.source_url things with
    | mk effs ab =>
      intro e hee
      simp only at hee
      rcases List.mem_append.mp hee with hee | hee
      · exact processThings_noDeletes cfg now w sc.source_url things e hee
      · revert hee
        cases ab <;> intro hee <;> simp_all [Effect.isDelete]

/-- The reconciliation pass never deletes anything from the target. -/
theorem reconcile_noDeletes (cfg : Config) (now : Int) (w : World) :
    ∀ e ∈ reconcile cfg now w, e.isDelete = false := by
  unfold reconcile
  cases cfg.basyx_url with
  | none => intro e hee; cases hee
  | some b =>
    show ∀ e ∈ reconcileSources cfg now w cfg.sources, _
    induction cfg.sources with
    | nil => intro e hee; cases hee
    | cons sc rest ih =>
      intro e hee
      rcases List.mem_append.mp hee with hee | hee
      · exact processSource_noDeletes cfg now w sc e hee
      · exact ih e hee

/-- C9: when the signature gate is enabled and rejects a configured
feature, that feature's step performs exactly the shell ensuring (when
it is the thing's first configured feature) and the submodel ensuring
and nothing else — no element upsert for the feature — and the whole
reconciliation pass contains no deletion of any shell, submodel or
element, so the objects ensured earlier in the pass remain in the
target. -/
theorem c9_gate_failure_keeps_shell_submodel (cfg : Config) (now : Int)
    (w : World) (su t fid : String) (fd : Feature) (he : Bool)
    (props : List String)
    (hres : get_export_config su (some t) fid cfg now = .ok (some props))
    (hsig : cfg.verify_signatures = true)
    (hver : verify_feature_signature w.crypto fd cfg.public_key_path
      = false) :
    processFeature cfg now w su (some t) he fid fd =
      .ok ((if he then [] else ensureShellEffs w t) ++
        ensureSubmodelEffs w t (t ++ ":" ++ fid), true) ∧
      (∀ (cfg2 : Config) (now2 : Int) (w2 : World),
        ∀ e ∈ reconcile cfg2 now2 w2, e.isDelete = false) := by
  refine ⟨?_, fun cfg2 now2 w2 => reconcile_noDeletes cfg2 now2 w2⟩
  unfold processFeature
  rw [hres]
  unfold processFeatureTail
  rw [hsig, hver]
  cases he with
  | true => simp [pyOptStr]
  | false => simp [pyOptStr]

/-- A policy for the gate-failure scenario: thing `t` of source `s` is
configured with a wildcard feature rule selecting everything, and
signature verification is enabled. -/
def cfgGate : Config :=
  { sources := [{ source_url := "s", things := [
      { thing_id := "t", downtime := some pastWindow,
        features := [{ feature_id := "*", properties := ["*"] }] }] }]
    basyx_url := some "b"
    verify_signatures := true }

/-- A world with empty target registry and failing crypto. -/
def wGate : World :=
  { thingsOf := fun _ => .ok [{ thingId := some "t" }]
    featuresOf := fun _ _ => .ok []
    shellExists := fun _ => false
    submodelExists := fun _ => false
    crypto := idleCrypto
    deleteShellStatus := fun _ => .ok 200
    deleteSubmodelStatus := fun _ => .ok 200
    deleteElementStatus := fun _ _ => .ok 200 }

/-- A feature bundle carrying no `signature` member, so the gate
rejects it. -/
def fdUnsigned : Feature :=
  { properties := some [("open", JVal.bool true)] }

/-- Witness for C9: on the thing's first configured feature with absent
shell and submodel, the step creates exactly shell and submodel and
writes no element. -/
theorem c9_gate_failure_keeps_shell_submodel_witness :
    processFeature cfgGate 5 wGate "s" (some "t") false "f" fdUnsigned =
      .ok ([.shellCreated "t", .submodelCreated "t" "t:f"], true) :=
  (c9_gate_failure_keeps_shell_submodel cfgGate 5 wGate "s" "t" "f"
    fdUnsigned false ["*"] rfl rfl rfl).1

/-- Modelled from the claim: the Shell/Submodel deletions the cleanup
should queue for one thing whose features resolve as `res` — when no
feature resolves, the Shell followed by the Submodels of all live source
features; otherwise only the Submodels of the unconfigured features. -/
def cleanupItemsSpec (res : String → Option (List String)) (tid : String)
    (feats : List (String × Feature)) : List CItem :=
  if feats.all (fun p => (res p.1).isNone) then
    CItem.shell tid ::
      feats.map (fun p => CItem.submodel (tid ++ ":" ++ p.1))
  else
    feats.filterMap (fun p =>
      if (res p.1).isNone then some (CItem.submodel (tid ++ ":" ++ p.1))
      else none)

/-- Modelled from the claim: the Element deletions the cleanup should
queue for one thing — for each configured feature whose selector has no
`"*"`, exactly the property names present on the source feature but
absent from the selector. -/
def cleanupElemsSpec (res : String → Option (List String)) (tid : String)
    (feats : List (String × Feature)) : List (String × String) :=
  if feats.all (fun p => (res p.1).isNone) then []
  else
    feats.flatMap (fun p =>
      match res p.1 with
      | none => []
      | some sel =>
        if sel.contains "*" then []
        else (((p.2.properties.getD []).map Prod.fst).filter
          (fun k => !sel.contains k)).map (fun k => (tid ++ ":" ++ p.1, k)))

/-- The `thing_has_exports` probe computes "some feature resolves". -/
theorem anyExports_eq (cfg : Config) (now : Int) (su tid : String)
    (res : String → Option (List String)) :
    ∀ feats : List (String × Feature),
      (∀ p ∈ feats,
        get_export_config su (some tid) p.1 cfg now = .ok (res p.1)) →
      anyExports cfg now su tid feats =
        .ok (!feats.all (fun p => (res p.1).isNone)) := by
  intro feats
  induction feats with
  | nil => intro _; simp [anyExports]
  | cons p rest ih =>
    intro hres
    obtain ⟨fid, fd⟩ := p
    have hp := hres (fid, fd) (by simp)
    cases hr : res fid with
    | some sel =>
      rw [hr] at hp
      unfold anyExports
      rw [hp]
      simp [hr]
    | none =>
      rw [hr] at hp
      unfold anyExports
      rw [hp]
      rw [ih (fun q hq => hres q (by simp [hq]))]
      simp [hr]

/-- The per-feature queueing of a partially configured thing computes
the claim's submodel and element queues. -/
theorem scanConfigured_eq (cfg : Config) (now : Int) (su tid : String)
    (res : String → Option (List String)) :
    ∀ feats : List (String × Feature),
      (∀ p ∈ feats,
        get_export_config su (some tid) p.1 cfg now = .ok (res p.1)) →
      scanConfigured cfg now su tid feats =
        .ok (feats.filterMap (fun p =>
            if (res p.1).isNone then
              some (CItem.submodel (tid ++ ":" ++ p.1))
            else none),
          feats.flatMap (fun p =>
            match res p.1 with
            | none => []
            | some sel =>
              if sel.contains "*" then []
              else (((p.2.properties.getD []).map Prod.fst).filter
                (fun k => !sel.contains k)).map
                  (fun k => (tid ++ ":" ++ p.1, k)))) := by
  intro feats
  induction feats with
  | nil => intro _; simp [scanConfigured]
  | cons p rest ih =>
    intro hres
    obtain ⟨fid, fd⟩ := p
    have hp := hres (fid, fd) (by simp)
    have hrest := ih (fun q hq => hres q (by simp [hq]))
    cases hr : res fid with
    | none =>
      rw [hr] at hp
      unfold scanConfigured
      rw [hp, hrest]
      simp [hr]
    | some sel =>
      rw [hr] at hp
      unfold scanConfigured
      rw [hp, hrest]
      simp [hr]

/-- C6: the cleanup queues at exactly the claimed granularity.  Given a
thing with a non-empty id whose live features the source reports as
`feats` and whose per-feature resolutions succeed with `res`: if no
feature resolves, the Shell and all the feature Submodels are queued
(and no Elements); if at least one resolves, exactly the Submodels of
the unconfigured features are queued (the Shell is not), and for each
configured feature whose selector lacks `"*"` exactly the Elements whose
property name is on the source feature but not in the selector. -/
theorem c6_cleanup_granularity (cfg : Config) (now : Int) (w : World)
    (su tid : String) (t : Thing) (feats : List (String × Feature))
    (res : String → Option (List String))
    (hid : t.thingId = some tid) (hne : ¬ tid = "")
    (hfeats : w.featuresOf su (some tid) = .ok feats)
    (hres : ∀ p ∈ feats,
      get_export_config su (some tid) p.1 cfg now = .ok (res p.1)) :
    scanThing cfg now w su t =
      .ok (cleanupItemsSpec res tid feats, cleanupElemsSpec res tid feats) := by
  unfold scanThing
  rw [hid]
  dsimp only
  rw [if_neg hne, hfeats]
  dsimp only
  rw [anyExports_eq cfg now su tid res feats hres]
  cases hall : feats.all (fun p => (res p.1).isNone) with
  | true =>
    simp only [Bool.not_true]
    unfold cleanupItemsSpec cleanupElemsSpec
    rw [if_pos hall, if_pos hall]
  | false =>
    simp only [Bool.not_false]
    unfold cleanupItemsSpec cleanupElemsSpec
    rw [if_neg (by simp [hall]), if_neg (by simp [hall])]
    exact scanConfigured_eq cfg now su tid res feats hres

/-- A policy for the cleanup-granularity scenario: only feature `f1` of
thing `t` is configured, with selector `["a"]`. -/
def cfgCleanup : Config :=
  { sources := [{ source_url := "s", things := [
      { thing_id := "t", downtime := some pastWindow,
        features := [{ feature_id := "f1", properties := ["a"] }] }] }]
    basyx_url := some "b" }

/-- A world where thing `t` carries feature `f1` with properties `a`,`b`
and feature `f2` with property `c`. -/
def wCleanup : World :=
  { thingsOf := fun _ => .ok [{ thingId := some "t" }]
    featuresOf := fun _ _ => .ok
      [("f1", { properties := some [("a", JVal.num 1), ("b", JVal.num 2)] }),
       ("f2", { properties := some [("c", JVal.num 3)] })]
    shellExists := fun _ => false
    submodelExists := fun _ => false
    crypto := idleCrypto
    deleteShellStatus := fun _ => .ok 200
    deleteSubmodelStatus := fun _ => .ok 200
    deleteElementStatus := fun _ _ => .ok 200 }

/-- The resolutions of `cfgCleanup` for thing `t`. -/
def resCleanup (fid : String) : Option (List String) :=
  if fid = "f1" then some ["a"] else none

/-- Witness for C6: with `f1` configured as `["a"]` and `f2` removed
from the policy, the queue holds exactly `f2`'s Submodel and the
Element `b` of `f1`'s Submodel — the Shell is not queued. -/
theorem c6_cleanup_granularity_witness :
    scanThing cfgCleanup 5 wCleanup "s" { thingId := some "t" } =
      .ok ([CItem.submodel "t:f2"], [("t:f1", "b")]) :=
  c6_cleanup_granularity cfgCleanup 5 wCleanup "s" "t"
    { thingId := some "t" }
    [("f1", { properties := some [("a", JVal.num 1), ("b", JVal.num 2)] }),
     ("f2", { properties := some [("c", JVal.num 3)] })]
    resCleanup rfl (by simp) rfl
    (by
      intro p hp
      simp only [List.mem_cons, List.not_mem_nil, or_false] at hp
      rcases hp with rfl | rfl
      · rfl
      · rfl)

end Exporter
